import Mathlib

/-!
Verification of the KNIME Python logical-type and schema layer.

The development shallowly embeds two parts of the repository:

* the schema / wire-codec layer (`knime_schema.py`).  Only the unit tests of
  that module ship in this source tree, so the data model and the codec are
  modelled from the specification (see the `Modelled from the spec:` doc
  comments below), with the observable behaviour pinned down by the unit
  tests in `test_knime_schema.py`.
* the geometry-specialised columnar bridge
  (`knime_arrow_geopandas.py`), embedded directly from the source.

Machine-level concerns (object identity, pyarrow buffers) are modelled as
structural values; Python exceptions are modelled with `Except`.
-/

/-- Modelled from the spec: the tag set of primitive KNIME types
(`PrimitiveTypeId` in `knime_schema.py`). -/
inductive PrimitiveTypeId
  | INT | LONG | DOUBLE | STRING | BOOL | BLOB
  deriving DecidableEq

mutual

/-- Modelled from the spec: the recursive value-type algebra `KnimeType`
with variants Primitive, List, Struct and Logical.  A Logical type wraps a
storage type together with an opaque logical-type identifier string; the
registered converter does not take part in equality, so it is omitted from
the structural value.  Struct inners use the mutually inductive
`KnimeTypeList` (an ordered sequence of inner types). -/
inductive KnimeType
  | primitive (t : PrimitiveTypeId)
  | list (inner : KnimeType)
  | struct (inners : KnimeTypeList)
  | logical (logical_id : String) (storage : KnimeType)

inductive KnimeTypeList
  | nil
  | cons (head : KnimeType) (tail : KnimeTypeList)

end

mutual

/-- Modelled from the spec: structural equality of `KnimeType` values
(Python `__eq__`): Primitive by tag, List by inner type, Struct by arity and
pairwise inner equality, Logical by storage type plus identifier. -/
def KnimeType.beq : KnimeType → KnimeType → Bool
  | .primitive a, .primitive b => a == b
  | .list a, .list b => KnimeType.beq a b
  | .struct as_, .struct bs => KnimeTypeList.beq as_ bs
  | .logical i s, .logical j t => i == j && KnimeType.beq s t
  | _, _ => false

def KnimeTypeList.beq : KnimeTypeList → KnimeTypeList → Bool
  | .nil, .nil => true
  | .cons a as_, .cons b bs => KnimeType.beq a b && KnimeTypeList.beq as_ bs
  | _, _ => false

end

/-- Modelled from the spec: primitive types are interned per tag — the
construction function returns the one process-wide instance for a tag
(identity of the constructed value is a function of the tag alone). -/
def internPrimitive : PrimitiveTypeId → KnimeType := fun p => .primitive p

/-- Modelled from the spec: the public constructor `int32()`. -/
def int32 : KnimeType := internPrimitive .INT

/-- Modelled from the spec: the public constructor `int64()`. -/
def int64 : KnimeType := internPrimitive .LONG

/-- Modelled from the spec: the public constructor `double()`. -/
def double : KnimeType := internPrimitive .DOUBLE

/-- Modelled from the spec: the public constructor `string()`. -/
def string : KnimeType := internPrimitive .STRING

/-- Modelled from the spec: the public constructor `bool_()`. -/
def bool_ : KnimeType := internPrimitive .BOOL

/-- Modelled from the spec: the public constructor `blob()`. -/
def blob : KnimeType := internPrimitive .BLOB

def KnimeType.isLogical : KnimeType → Bool
  | .logical _ _ => true
  | _ => false

/-- Modelled from the spec: a schema column — a `KnimeType`, a name that
must be non-empty after trimming, and optional string metadata. -/
structure Column where
  ktype : KnimeType
  name : String
  metadata : Option String

/-- Structural equality of columns (Python `Column.__eq__`): type, name and
metadata must agree. -/
def Column.beq (a b : Column) : Bool :=
  KnimeType.beq a.ktype b.ktype && a.name == b.name && a.metadata == b.metadata

/-- Modelled from the spec: a schema is an ordered sequence of columns. -/
structure Schema where
  columns : List Column

def Schema.num_columns (s : Schema) : Nat := s.columns.length

def Schema.column_names (s : Schema) : List String := s.columns.map Column.name

def isWS (c : Char) : Bool := c == ' ' || c == '\t' || c == '\n' || c == '\r'

/-- Python `str.strip()` as used for column-name trimming, modelled over
the character list. -/
def pyStrip (s : String) : String :=
  ⟨((s.toList.dropWhile isWS).reverse.dropWhile isWS).reverse⟩

/-- Modelled from the spec: checked column construction — fails with a
construction error if the name is blank after trimming.  (The Python check
that the type argument is a `KnimeType` is subsumed by Lean's typing.) -/
def Column.create (ktype : KnimeType) (name : String) (metadata : Option String) :
    Except String Column :=
  if pyStrip name = "" then .error "Column name may not be empty" else .ok ⟨ktype, name, metadata⟩

def buildColumns : List KnimeType → List String → List (Option String) →
    Except String (List Column)
  | [], [], [] => .ok []
  | t :: ts, n :: ns, m :: ms => do
      let c ← Column.create t n m
      let cs ← buildColumns ts ns ms
      .ok (c :: cs)
  | _, _, _ => .error "Number of types must match number of names"

/-- Modelled from the spec: checked schema construction from parallel
type/name[/metadata] sequences — fails if the lengths mismatch or any name
is blank.  Name uniqueness is NOT checked here. -/
def Schema.from_types (ktypes : List KnimeType) (names : List String)
    (metadata : Option (List String)) : Except String Schema := do
  let md := match metadata with
    | some ms => ms.map some
    | none => names.map (fun _ => none)
  if ktypes.length ≠ names.length then
    .error "Number of types must match number of names"
  else if md.length ≠ names.length then
    .error "Number of metadata entries must match number of names"
  else do
    let cs ← buildColumns ktypes names md
    .ok ⟨cs⟩

/-- Modelled from the spec: the JSON-embedded logical-type identifier string
derived from a value-factory name.  The identifiers are opaque cross-process
constants; only their fixed values and pairwise distinctness matter. -/
def knimeLogicalTypeId (factory : String) : String :=
  "\x7b\"value_factory_class\":\"org.knime.core.data.v2.value." ++ factory ++ "\"\x7d"

/-- Modelled from the spec: the fixed well-known row-key identifier. -/
def _row_key_type : String := knimeLogicalTypeId "DefaultRowKeyValueFactory"

/-- Modelled from the spec: the fixed well-known "list" wrapper identifier. -/
def _logical_list_type : String := knimeLogicalTypeId "ListValueFactory"

/-- Modelled from the spec: the dedicated logical identifier each primitive
tag is wrapped with at wire export. -/
def primitiveLogicalId : PrimitiveTypeId → String
  | .INT => knimeLogicalTypeId "IntValueFactory"
  | .LONG => knimeLogicalTypeId "LongValueFactory"
  | .DOUBLE => knimeLogicalTypeId "DoubleValueFactory"
  | .STRING => knimeLogicalTypeId "StringValueFactory"
  | .BOOL => knimeLogicalTypeId "BooleanValueFactory"
  | .BLOB => knimeLogicalTypeId "BinaryBlobValueFactory"

/-- Modelled from the spec: the dedicated logical identifier a list of a
primitive tag is wrapped with at wire export (lists of other element types
get the generic `_logical_list_type` wrapper instead). -/
def primitiveListLogicalId : PrimitiveTypeId → String
  | .INT => knimeLogicalTypeId "IntListValueFactory"
  | .LONG => knimeLogicalTypeId "LongListValueFactory"
  | .DOUBLE => knimeLogicalTypeId "DoubleListValueFactory"
  | .STRING => knimeLogicalTypeId "StringListValueFactory"
  | .BOOL => knimeLogicalTypeId "BooleanListValueFactory"
  | .BLOB => knimeLogicalTypeId "BinaryBlobListValueFactory"

/-- Modelled from the spec: the recognized physical leaf tag of each
primitive type in the wire "specs" tree. -/
def primitiveTag : PrimitiveTypeId → String
  | .INT => "int32"
  | .LONG => "int64"
  | .DOUBLE => "double"
  | .STRING => "string"
  | .BOOL => "boolean"
  | .BLOB => "variable_width_binary"

/-- Inverse of `primitiveTag`; an unrecognized leaf tag is a serialization
error at import. -/
def tagToPrimitive (tag : String) : Except String KnimeType :=
  if tag = "int32" then .ok (.primitive .INT)
  else if tag = "int64" then .ok (.primitive .LONG)
  else if tag = "double" then .ok (.primitive .DOUBLE)
  else if tag = "string" then .ok (.primitive .STRING)
  else if tag = "boolean" then .ok (.primitive .BOOL)
  else if tag = "variable_width_binary" then .ok (.primitive .BLOB)
  else .error "Unrecognized spec leaf tag"

/-- Inverse of the primitive wrapping maps: the plain type a reserved
primitive (or primitive-list) identifier unwraps back to. -/
def primitiveTypeOfId (lid : String) : Option KnimeType :=
  if lid = primitiveLogicalId .INT then some (.primitive .INT)
  else if lid = primitiveLogicalId .LONG then some (.primitive .LONG)
  else if lid = primitiveLogicalId .DOUBLE then some (.primitive .DOUBLE)
  else if lid = primitiveLogicalId .STRING then some (.primitive .STRING)
  else if lid = primitiveLogicalId .BOOL then some (.primitive .BOOL)
  else if lid = primitiveLogicalId .BLOB then some (.primitive .BLOB)
  else if lid = primitiveListLogicalId .INT then some (.list (.primitive .INT))
  else if lid = primitiveListLogicalId .LONG then some (.list (.primitive .LONG))
  else if lid = primitiveListLogicalId .DOUBLE then some (.list (.primitive .DOUBLE))
  else if lid = primitiveListLogicalId .STRING then some (.list (.primitive .STRING))
  else if lid = primitiveListLogicalId .BOOL then some (.list (.primitive .BOOL))
  else if lid = primitiveListLogicalId .BLOB then some (.list (.primitive .BLOB))
  else none

/-- Identifiers the wire codec reserves for itself: the row-key identifier,
the generic list wrapper, and the primitive / primitive-list identifiers. -/
def isReservedId (lid : String) : Bool :=
  lid == _row_key_type || lid == _logical_list_type ||
  lid == primitiveLogicalId .INT || lid == primitiveLogicalId .LONG ||
  lid == primitiveLogicalId .DOUBLE || lid == primitiveLogicalId .STRING ||
  lid == primitiveLogicalId .BOOL || lid == primitiveLogicalId .BLOB ||
  lid == primitiveListLogicalId .INT || lid == primitiveListLogicalId .LONG ||
  lid == primitiveListLogicalId .DOUBLE || lid == primitiveListLogicalId .STRING ||
  lid == primitiveListLogicalId .BOOL || lid == primitiveListLogicalId .BLOB

/-- Modelled from the spec: an entry of the process-wide extension
registry, keyed by a value type: the derived logical identifier and the
parsed storage type (the converter itself plays no role in type
construction). -/
structure PythonValueFactory where
  logical_id : String
  storage : KnimeType

/-- Whether the extension registry holds a converter for a logical
identifier (the registry keys its converters by the logical identifier as
well as by the value type). -/
def isRegisteredId (registry : List (String × PythonValueFactory)) (lid : String) : Bool :=
  registry.any (fun e => e.2.logical_id == lid)

/-- An identifier the importer accepts: one of the codec's own built-in
identifiers, or one with a registered converter. -/
def idOk (registry : List (String × PythonValueFactory)) (lid : String) : Bool :=
  isReservedId lid || isRegisteredId registry lid

mutual

/-- Modelled from the spec: the recursive physical shape in the wire dict's
"specs" entry: a Primitive is a leaf tag, a List is
`\x7b"type":"list","inner_type":…\x7d`, a Struct is
`\x7b"type":"struct","inner_types":[…]\x7d`; a Logical contributes the spec
of its storage type. -/
inductive PySpec
  | leaf (tag : String)
  | list (inner : PySpec)
  | struct (inners : PySpecList)

inductive PySpecList
  | nil
  | cons (head : PySpec) (tail : PySpecList)

end

mutual

/-- Modelled from the spec: a node of the wire dict's "traits" tree.  The
tree mirrors the shape of the "specs" tree; a node's optional
`logical_type` entry is `some id` exactly on the nodes a Logical type sits
on, and the traits dict is empty (`none`) on non-logical nodes. -/
inductive TraitNode
  | simple (lt : Option String)
  | list (lt : Option String) (inner : TraitNode)
  | struct (lt : Option String) (inners : TraitNodeList)

inductive TraitNodeList
  | nil
  | cons (head : TraitNode) (tail : TraitNodeList)

end

/-- The `logical_type` entry of a traits node's own traits dict. -/
def TraitNode.topLt : TraitNode → Option String
  | .simple lt => lt
  | .list lt _ => lt
  | .struct lt _ => lt

/-- Modelled from the spec: the wire dict
`\x7b"schema": \x7b"specs": […], "traits": […]\x7d, "columnNames": […],
"columnMetaData": […]\x7d`. -/
structure WireDict where
  specs : List PySpec
  traits : List TraitNode
  columnNames : List String
  columnMetaData : List (Option String)

mutual

/-- The "specs" tree of a `KnimeType`. -/
def typeToSpec : KnimeType → PySpec
  | .primitive p => .leaf (primitiveTag p)
  | .list t => .list (typeToSpec t)
  | .struct ts => .struct (typeToSpecList ts)
  | .logical _ s => typeToSpec s

def typeToSpecList : KnimeTypeList → PySpecList
  | .nil => .nil
  | .cons t ts => .cons (typeToSpec t) (typeToSpecList ts)

end

mutual

/-- The "traits" tree of a `KnimeType`: it mirrors the shape of the specs
tree, placing a Logical node's identifier on the node its storage type
produces (`o` is the identifier handed down by an enclosing Logical). -/
def typeToTraits : KnimeType → Option String → TraitNode
  | .primitive _, o => .simple o
  | .list t, o => .list o (typeToTraits t none)
  | .struct ts, o => .struct o (typeToTraitsList ts)
  | .logical lid s, o => typeToTraits s (if o.isSome then o else some lid)

def typeToTraitsList : KnimeTypeList → TraitNodeList
  | .nil => .nil
  | .cons t ts => .cons (typeToTraits t none) (typeToTraitsList ts)

end

/-- Wrap a reconstructed type in a Logical if the traits node carried a
`logical_type` identifier. -/
def applyLt : Option String → KnimeType → KnimeType
  | none, t => t
  | some lid, t => .logical lid t

/-- Modelled from the spec: the importer's handling of a traits node's
`logical_type` entry — it consults the Extension Registry for every
identifier it meets, failing with a serialization error when the
identifier is neither one of the codec's own built-in identifiers nor
registered. -/
def checkLt (registry : List (String × PythonValueFactory)) (o : Option String)
    (t : KnimeType) : Except String KnimeType :=
  match o with
  | none => .ok t
  | some lid =>
      if idOk registry lid then .ok (.logical lid t)
      else .error "Unregistered logical identifier"

mutual

/-- Modelled from the spec: import-side reconstruction — walk the specs and
traits trees in lockstep, rebuilding the `KnimeType` bottom-up and
consulting the Extension Registry for every `logical_type` trait; a
malformed or unrecognized shape, or an unregistered logical identifier, is
a serialization error. -/
def dictToType (registry : List (String × PythonValueFactory)) :
    PySpec → TraitNode → Except String KnimeType
  | .leaf tag, .simple o => do
      let p ← tagToPrimitive tag
      checkLt registry o p
  | .list sp, .list o tr => do
      let inner ← dictToType registry sp tr
      checkLt registry o (.list inner)
  | .struct sps, .struct o trs => do
      let inners ← dictToTypeList registry sps trs
      checkLt registry o (.struct inners)
  | _, _ => .error "Specs and traits have mismatching shapes"

def dictToTypeList (registry : List (String × PythonValueFactory)) :
    PySpecList → TraitNodeList → Except String KnimeTypeList
  | .nil, .nil => .ok .nil
  | .cons sp sps, .cons tr trs => do
      let x ← dictToType registry sp tr
      let xs ← dictToTypeList registry sps trs
      .ok (.cons x xs)
  | _, _ => .error "Specs and traits have mismatching shapes"

end

/-- Modelled from the spec: export-side wrapping of a column type.  A plain
primitive is wrapped with its dedicated identifier, a list of a plain
primitive with the dedicated primitive-list identifier, and every other
list with the fixed well-known "list" identifier layered outside the
(recursively wrapped) element type; Struct and Logical types pass through
unchanged. -/
def wrapType : KnimeType → KnimeType
  | .primitive p => .logical (primitiveLogicalId p) (.primitive p)
  | .list (.primitive p) => .logical (primitiveListLogicalId p) (.list (.primitive p))
  | .list inner => .logical _logical_list_type (.list (wrapType inner))
  | t => t

/-- Modelled from the spec: import-side unwrapping, the inverse of
`wrapType`: a reserved primitive or primitive-list identifier unwraps to
the plain type, a "list" wrapper around a list unwraps to a list of the
unwrapped element, and every other type is left unchanged. -/
def unwrapType : KnimeType → KnimeType
  | .logical lid (.list inner) =>
      (primitiveTypeOfId lid).getD
        (if lid = _logical_list_type then .list (unwrapType inner)
         else .logical lid (.list inner))
  | .logical lid storage => (primitiveTypeOfId lid).getD (.logical lid storage)
  | t => t

def hasDuplicateB : List String → Bool
  | [] => false
  | x :: xs => xs.contains x || hasDuplicateB xs

def wrapColumn (c : Column) : Column := ⟨wrapType c.ktype, c.name, c.metadata⟩

/-- Modelled from the spec: the reserved row-key column the exporter places
at wire position 0 — a string column wrapped with the fixed well-known
row-key identifier, regardless of anything the caller declared. -/
def rowKeyColumn : Column := ⟨.logical _row_key_type (.primitive .STRING), "RowKey", none⟩

/-- Modelled from the spec: `to_knime_dict` — fails with a serialization
error if any two (trimmed) column names are equal; otherwise prepends the
forced row-key column, wraps every column type, and emits the parallel
specs/traits/names/metadata arrays. -/
def Schema.to_knime_dict (s : Schema) : Except String WireDict :=
  if hasDuplicateB (s.columns.map (fun c => pyStrip c.name)) then
    .error "Duplicate column names detected"
  else
    .ok ⟨(rowKeyColumn :: s.columns.map wrapColumn).map (fun c => typeToSpec c.ktype),
      (rowKeyColumn :: s.columns.map wrapColumn).map (fun c => typeToTraits c.ktype none),
      (rowKeyColumn :: s.columns.map wrapColumn).map Column.name,
      (rowKeyColumn :: s.columns.map wrapColumn).map Column.metadata⟩

def isRowKeyType : KnimeType → Bool
  | .logical lid _ => lid == _row_key_type
  | _ => false

def zipToTypes (registry : List (String × PythonValueFactory)) :
    List PySpec → List TraitNode → Except String (List KnimeType)
  | [], [] => .ok []
  | sp :: sps, tr :: trs => do
      let x ← dictToType registry sp tr
      let xs ← zipToTypes registry sps trs
      .ok (x :: xs)
  | _, _ => .error "Number of specs and traits does not match"

/-- Modelled from the spec: `from_knime_dict` — walks specs and traits in
lockstep reconstructing the types, consulting the Extension Registry for
every `logical_type` trait (an unregistered identifier fails the whole
conversion with a serialization error), strips the leading row-key column
when present, unwraps the forced primitive/list wrappers, and rebuilds the
columns from the parallel name/metadata arrays through the checked
constructor. -/
def Schema.from_knime_dict (registry : List (String × PythonValueFactory))
    (d : WireDict) : Except String Schema := do
  let types ← zipToTypes registry d.specs d.traits
  match types, d.columnNames, d.columnMetaData with
  | t0 :: trest, _ :: nrest, _ :: mrest =>
      if isRowKeyType t0 then do
        let cs ← buildColumns (trest.map unwrapType) nrest mrest
        .ok ⟨cs⟩
      else do
        let cs ← buildColumns (types.map unwrapType) d.columnNames d.columnMetaData
        .ok ⟨cs⟩
  | _, _, _ => do
      let cs ← buildColumns (types.map unwrapType) d.columnNames d.columnMetaData
      .ok ⟨cs⟩

mutual

/-- A type with no Logical node directly wrapping another Logical node (two
logical tags cannot sit on one physical wire node). -/
def noDoubleLogical : KnimeType → Bool
  | .primitive _ => true
  | .list t => noDoubleLogical t
  | .struct ts => noDoubleLogicalList ts
  | .logical _ s => !s.isLogical && noDoubleLogical s

def noDoubleLogicalList : KnimeTypeList → Bool
  | .nil => true
  | .cons t ts => noDoubleLogical t && noDoubleLogicalList ts

end

mutual

/-- A representable type: every Logical node uses a non-reserved identifier
and wraps a non-Logical storage type.  Types outside this set collide with
the wire codec's own tagging and cannot round-trip faithfully. -/
def goodType : KnimeType → Bool
  | .primitive _ => true
  | .list t => goodType t
  | .struct ts => goodTypeList ts
  | .logical lid s => !isReservedId lid && !s.isLogical && goodType s

def goodTypeList : KnimeTypeList → Bool
  | .nil => true
  | .cons t ts => goodType t && goodTypeList ts

end

def goodColumn (c : Column) : Bool := goodType c.ktype && pyStrip c.name != ""

/-- A representable schema: every column has a representable type and a
non-blank name. -/
def goodSchema (s : Schema) : Bool := s.columns.all goodColumn

mutual

/-- Every logical identifier occurring in a type is acceptable to the
importer: built-in or registered. -/
def idsOk (registry : List (String × PythonValueFactory)) : KnimeType → Bool
  | .primitive _ => true
  | .list t => idsOk registry t
  | .struct ts => idsOkList registry ts
  | .logical lid st => idOk registry lid && idsOk registry st

def idsOkList (registry : List (String × PythonValueFactory)) : KnimeTypeList → Bool
  | .nil => true
  | .cons t ts => idsOk registry t && idsOkList registry ts

end

mutual

/-- Every logical identifier occurring in a type has a registered
converter in the given registry. -/
def registeredType (registry : List (String × PythonValueFactory)) : KnimeType → Bool
  | .primitive _ => true
  | .list t => registeredType registry t
  | .struct ts => registeredTypeList registry ts
  | .logical lid st => isRegisteredId registry lid && registeredType registry st

def registeredTypeList (registry : List (String × PythonValueFactory)) :
    KnimeTypeList → Bool
  | .nil => true
  | .cons t ts => registeredType registry t && registeredTypeList registry ts

end

/-- A schema all of whose logical identifiers are registered — the
precondition under which the registry-consulting import can succeed. -/
def registeredSchema (registry : List (String × PythonValueFactory)) (s : Schema) : Bool :=
  s.columns.all (fun c => registeredType registry c.ktype)

/-- Modelled from the spec: the identifier accepted by `Schema.remove` — a
column name or a `Column` value. -/
inductive RemoveArg
  | name (n : String)
  | column (c : Column)

/-- Whether a column matches a remove identifier: by exact name, or by
structural column equality. -/
def colMatches : RemoveArg → Column → Bool
  | .name n, c => c.name == n
  | .column c0, c => Column.beq c c0

/-- Modelled from the spec: removal of the first matching column from the
column list (Python `list.remove` driven by `__eq__`); a lookup error if no
column matches, leaving the list untouched. -/
def removeCols (a : RemoveArg) : List Column → Except String (List Column)
  | [] => .error "Column not found"
  | c :: cs =>
      if colMatches a c then .ok cs
      else (removeCols a cs).map (fun rest => c :: rest)

/-- Modelled from the spec: `Schema.remove` — mutates the schema in place;
modelled by returning the next schema state. -/
def Schema.remove (s : Schema) (a : RemoveArg) : Except String Schema :=
  (removeCols a s.columns).map (fun cs => ⟨cs⟩)

/-- Sequentially remove a list of names from a schema (each step acting on
the schema state the previous step produced). -/
def removeAllNames (s : Schema) : List String → Except String Schema
  | [] => .ok s
  | n :: ns => do
      let s2 ← s.remove (.name n)
      removeAllNames s2 ns

/-- Python iteration over the schema's own (mutating) column list, calling
`remove` on each visited column: the loop keeps an index `i` into the
current state of the list, visits `cols[i]`, lets the body remove the first
column structurally equal to it, and advances to `i+1`; it stops as soon as
`i` falls outside the current list. -/
def pyLoopRemove (i : Nat) (cols : List Column) : Except String (List Column) :=
  if h : i < cols.length then
    match h2 : removeCols (.column (cols.get ⟨i, h⟩)) cols with
    | .ok cs => pyLoopRemove (i + 1) cs
    | .error e => .error e
  else .ok cols
termination_by cols.length - i
decreasing_by
  have key : ∀ (a : RemoveArg) (l res : List Column),
      removeCols a l = Except.ok res → res.length + 1 = l.length := by
    intro a l
    induction l with
    | nil => intro res hres; simp [removeCols] at hres
    | cons c cs ih =>
        intro res hres
        by_cases hm : colMatches a c = true
        · simp [removeCols, hm] at hres
          simp [← hres]
        · simp [removeCols, hm] at hres
          cases hrec : removeCols a cs with
          | ok rest =>
              rw [hrec] at hres
              simp [Except.map] at hres
              have := ih rest hrec
              simp [← hres, List.length_cons]
              omega
          | error e => rw [hrec] at hres; simp [Except.map] at hres
  have := key _ _ _ h2
  omega

/-- The columns at odd positions of a list — what the mutating loop above
leaves behind on pairwise-distinct columns. -/
def everyOther : List Column → List Column
  | [] => []
  | [_] => []
  | _ :: b :: rest => b :: everyOther rest

/-- An argument passed to `logical(...)`: either a (key identifying a)
value type, or an object that is not a type at all. -/
inductive PyArg
  | valueType (key : String)
  | nonType

/-- Modelled from the spec: `logical(value_type)` — looks up a converter by
value type in the registry and returns a Logical type wrapping its storage
type; fails with a type error for any unregistered or non-type-like
argument.  The process-wide registry is passed explicitly. -/
def logical (registry : List (String × PythonValueFactory)) (v : PyArg) :
    Except String KnimeType :=
  match v with
  | .nonType => .error "Argument of logical is not a registered value type"
  | .valueType key =>
      match registry.lookup key with
      | some f => .ok (.logical f.logical_id f.storage)
      | none => .error "Argument of logical is not a registered value type"

/-- A physical pyarrow storage data type, abstracted to its name. -/
structure PaType where
  tname : String

/-- A registered value converter as seen by the columnar bridge, over the
scalar value type `σ`: an encode/decode pair plus the
`needs_conversion` flag.  The theorems only ever inspect whether it is
applied, never what it computes. -/
structure Converter (σ : Type) where
  needsConversionFlag : Bool
  encode : σ → σ
  decode : σ → σ

/-- The backing data of a pandas extension array: a single pyarrow array
(one chunk of scalars) or a chunked array (a list of chunks). -/
inductive PaData (σ : Type)
  | array (values : List σ)
  | chunked (chunks : List (List σ))

/-- `knime_arrow_types.LogicalTypeExtensionType`: a pyarrow extension type
carrying storage type, logical identifier and converter. -/
structure LogicalTypeExtensionType (σ : Type) where
  storage_type : PaType
  logical_type : String
  converter : Option (Converter σ)

/-- The declared pyarrow type of an incoming arrow array: either a logical
extension type or a plain storage type. -/
inductive ArrowColumnType (σ : Type)
  | extension (ext : LogicalTypeExtensionType σ)
  | plain (t : PaType)

/-- The `scalars` argument of `_from_sequence`: Python `None`, an arrow
(possibly chunked) array together with its declared type, or a plain
sequence of scalar values. -/
inductive Scalars (σ : Type)
  | none
  | arrowData (ty : ArrowColumnType σ) (data : PaData σ)
  | sequence (values : List σ)

/-- `PandasLogicalGeoTypeExtensionType` (`knime_arrow_geopandas.py`): the
pandas dtype of a geometry column, carrying storage type, logical
identifier and converter. -/
structure PandasLogicalGeoTypeExtensionType (σ : Type) where
  storage_type : PaType
  logical_type : String
  converter : Option (Converter σ)

/-- `KnimeGeoPandasExtensionArray` (`knime_arrow_geopandas.py`): a geometry
extension array — storage type, logical identifier, converter and the
backing arrow data. -/
structure KnimeGeoPandasExtensionArray (σ : Type) where
  storage_type : PaType
  logical_type : Option String
  converter : Option (Converter σ)
  data : PaData σ

def charsStartWith : List Char → List Char → Bool
  | [], _ => true
  | _ :: _, [] => false
  | a :: as_, b :: bs => a == b && charsStartWith as_ bs

/-- Python's substring test `needle in hay`. -/
def containsChars (needle : List Char) : List Char → Bool
  | [] => charsStartWith needle []
  | b :: bs => charsStartWith needle (b :: bs) || containsChars needle bs

/-- Whether an arrow type is a `LogicalTypeExtensionType` whose logical
identifier contains `"Geo"` — the only arrow input `_from_sequence`
accepts. -/
def ArrowColumnType.isGeoExtension : ArrowColumnType σ → Bool
  | .extension e => containsChars "Geo".toList e.logical_type.toList
  | .plain _ => false

/-- `KnimeGeoPandasExtensionArray._from_sequence`
(`knime_arrow_geopandas.py` lines 99-150): rejects `None`; accepts an arrow
array only if its type is a Geo logical extension type, adopting that
type's storage/logical/converter and the data as-is; for a plain sequence
it takes storage/logical/converter from a geo dtype when one is passed
(encoding the scalars if the converter requires conversion) and fails if no
storage type is available. -/
def KnimeGeoPandasExtensionArray._from_sequence (scalars : Scalars σ)
    (dtype : Option (PandasLogicalGeoTypeExtensionType σ))
    (storage_type : Option PaType) (logical_type : Option String)
    (converter : Option (Converter σ)) :
    Except String (KnimeGeoPandasExtensionArray σ) :=
  match scalars with
  | .none => .error "Cannot create KnimeGeoPandasExtensionArray from empty data"
  | .arrowData ty data =>
      match ty with
      | .extension e =>
          if containsChars "Geo".toList e.logical_type.toList then
            .ok ⟨e.storage_type, some e.logical_type, e.converter, data⟩
          else
            .error "KnimeGeoPandasExtensionArray must be backed by LogicalTypeExtensionType values with logical type Geo"
      | .plain _ =>
          .error "KnimeGeoPandasExtensionArray must be backed by LogicalTypeExtensionType values with logical type Geo"
  | .sequence xs =>
      let resolved :=
        match dtype with
        | some g =>
            (some g.storage_type, some g.logical_type, g.converter,
              match g.converter with
              | some cv => if cv.needsConversionFlag then xs.map cv.encode else xs
              | none => xs)
        | none => (storage_type, logical_type, converter, xs)
      match resolved with
      | (none, _, _, _) =>
          .error "Can only create KnimeGeoPandasExtensionArray from a sequence if the storage type is given."
      | (some st, lt, cv, ys) => .ok ⟨st, lt, cv, .array ys⟩

/-- The already-encoded chunks an input contributes to a concatenation: a
chunked array contributes its chunk list, a plain array itself. -/
def KnimeGeoPandasExtensionArray.chunksOf (a : KnimeGeoPandasExtensionArray σ) :
    List (List σ) :=
  match a.data with
  | .chunked cs => cs
  | .array v => [v]

/-- `KnimeGeoPandasExtensionArray._concat_same_type`
(`knime_arrow_geopandas.py` lines 169-192): an empty input is an error, a
singleton is returned unchanged, and two or more arrays are combined into a
chunked array of all inputs' chunks in order, tagged with the first input's
storage type, logical type and converter; no converter is applied to any
chunk. -/
def KnimeGeoPandasExtensionArray._concat_same_type
    (to_concat : List (KnimeGeoPandasExtensionArray σ)) :
    Except String (KnimeGeoPandasExtensionArray σ) :=
  match to_concat with
  | [] => .error "Nothing to concatenate"
  | [a] => .ok a
  | l@(first :: _ :: _) =>
      .ok ⟨first.storage_type, first.logical_type, first.converter,
        .chunked (l.flatMap KnimeGeoPandasExtensionArray.chunksOf)⟩

/-- Index of the first column matching a remove identifier, if any. -/
def firstMatchIdx (a : RemoveArg) : List Column → Option Nat
  | [] => none
  | c :: cs => if colMatches a c then some 0 else (firstMatchIdx a cs).map (· + 1)

/-- The condition named by the list-wrapper claim: a List type whose
element type is a Logical type. -/
def isListOfLogical : KnimeType → Bool
  | .list (.logical _ _) => true
  | _ => false

/-- A List type whose element type is not a plain primitive — the types
whose export actually carries the generic "list" identifier at the outer
level. -/
def isNonPrimitiveList : KnimeType → Bool
  | .list (.primitive _) => false
  | .list _ => true
  | _ => false

/-- The logical identifier the tests register for `datetime.date`. -/
def localDateId : String :=
  "\x7b\"value_factory_class\":\"org.knime.core.data.v2.time.LocalDateValueFactory\"\x7d"

/-- The logical identifier the tests register for `datetime.time`. -/
def localTimeId : String :=
  "\x7b\"value_factory_class\":\"org.knime.core.data.v2.time.LocalTimeValueFactory\"\x7d"

def exC1 : Schema :=
  ⟨[⟨.primitive .INT, "Int", none⟩,
    ⟨.list (.logical localDateId (.primitive .LONG)), "Dates", some "meta"⟩,
    ⟨.struct (.cons (.primitive .LONG) (.cons (.primitive .STRING) .nil)), "Struct", none⟩,
    ⟨.logical localTimeId (.primitive .LONG), "Time", none⟩]⟩

def exC1dict : WireDict :=
  match Schema.to_knime_dict exC1 with
  | .ok d => d
  | .error _ => ⟨[], [], [], []⟩

/-- The registry the C1 witness imports against: converters registered for
the date and time identifiers `exC1` uses. -/
def exC1reg : List (String × PythonValueFactory) :=
  [("datetime.date", ⟨localDateId, .primitive .LONG⟩),
   ("datetime.time", ⟨localTimeId, .primitive .LONG⟩)]

def exC2 : Schema := ⟨[⟨.logical localDateId (.primitive .LONG), "D", none⟩]⟩

def exC2dict : WireDict :=
  match Schema.to_knime_dict exC2 with
  | .ok d => d
  | .error _ => ⟨[], [], [], []⟩

def exC3 : Schema :=
  ⟨[⟨.list (.struct (.cons (.primitive .LONG) (.cons (.primitive .STRING) .nil))),
    "Structs", none⟩]⟩

def exC3dict : WireDict :=
  match Schema.to_knime_dict exC3 with
  | .ok d => d
  | .error _ => ⟨[], [], [], []⟩

def exC3b : Schema := ⟨[⟨.list (.logical localDateId (.primitive .LONG)), "Dates", none⟩]⟩

def exC3bdict : WireDict :=
  match Schema.to_knime_dict exC3b with
  | .ok d => d
  | .error _ => ⟨[], [], [], []⟩

def exC6 : Schema := ⟨[⟨.primitive .INT, "A", none⟩, ⟨.primitive .LONG, "B", none⟩]⟩

def exC9cols : List Column :=
  [⟨.primitive .INT, "Ints", none⟩, ⟨.primitive .LONG, "Longs", none⟩,
   ⟨.primitive .DOUBLE, "Doubles", none⟩, ⟨.primitive .STRING, "Strings", none⟩]

def exC7reg : List (String × PythonValueFactory) :=
  [("datetime.date", ⟨localDateId, .primitive .LONG⟩)]

def exC8a : KnimeGeoPandasExtensionArray Nat :=
  ⟨⟨"struct<binary, string>"⟩, some "GeoPointValueFactory", none, .chunked [[1], [2]]⟩

def exC8b : KnimeGeoPandasExtensionArray Nat :=
  ⟨⟨"binary"⟩, some "other", none, .array [3]⟩

mutual

theorem knimeTypeBeqSelf : ∀ (t : KnimeType), KnimeType.beq t t = true
  | .primitive a => by simp [KnimeType.beq]
  | .list a => by simp [KnimeType.beq, knimeTypeBeqSelf a]
  | .struct as_ => by simp [KnimeType.beq, knimeTypeListBeqSelf as_]
  | .logical i s => by simp [KnimeType.beq, knimeTypeBeqSelf s]

theorem knimeTypeListBeqSelf : ∀ (ts : KnimeTypeList), KnimeTypeList.beq ts ts = true
  | .nil => by simp [KnimeTypeList.beq]
  | .cons a as_ => by
      simp [KnimeTypeList.beq, knimeTypeBeqSelf a, knimeTypeListBeqSelf as_]

end

theorem columnBeqSelf (c : Column) : Column.beq c c = true := by
  simp [Column.beq, knimeTypeBeqSelf]

theorem tagToPrimitive_primitiveTag (p : PrimitiveTypeId) :
    tagToPrimitive (primitiveTag p) = .ok (.primitive p) := by
  cases p <;> rfl

theorem primitiveTypeOfId_primitive (p : PrimitiveTypeId) :
    primitiveTypeOfId (primitiveLogicalId p) = some (.primitive p) := by
  cases p <;> rfl

theorem primitiveTypeOfId_primitiveList (p : PrimitiveTypeId) :
    primitiveTypeOfId (primitiveListLogicalId p) = some (.list (.primitive p)) := by
  cases p <;> rfl

theorem primitiveTypeOfId_listId : primitiveTypeOfId _logical_list_type = none := by rfl

theorem not_reserved_components (lid : String) (h : isReservedId lid = false) :
    lid ≠ _row_key_type ∧ lid ≠ _logical_list_type ∧
    (∀ p, lid ≠ primitiveLogicalId p) ∧ (∀ p, lid ≠ primitiveListLogicalId p) := by
  simp only [isReservedId, Bool.or_eq_false_iff, beq_eq_false_iff_ne, ne_eq] at h
  obtain ⟨⟨⟨⟨⟨⟨⟨⟨⟨⟨⟨⟨⟨h1, h2⟩, h3⟩, h4⟩, h5⟩, h6⟩, h7⟩, h8⟩, h9⟩, h10⟩, h11⟩, h12⟩, h13⟩, h14⟩ := h
  refine ⟨h1, h2, ?_, ?_⟩
  · intro p
    cases p
    · exact h3
    · exact h4
    · exact h5
    · exact h6
    · exact h7
    · exact h8
  · intro p
    cases p
    · exact h9
    · exact h10
    · exact h11
    · exact h12
    · exact h13
    · exact h14

theorem primitiveTypeOfId_of_not_reserved (lid : String) (h : isReservedId lid = false) :
    primitiveTypeOfId lid = none := by
  obtain ⟨-, -, hp, hl⟩ := not_reserved_components lid h
  unfold primitiveTypeOfId
  rw [if_neg (hp .INT), if_neg (hp .LONG), if_neg (hp .DOUBLE), if_neg (hp .STRING),
    if_neg (hp .BOOL), if_neg (hp .BLOB), if_neg (hl .INT), if_neg (hl .LONG),
    if_neg (hl .DOUBLE), if_neg (hl .STRING), if_neg (hl .BOOL), if_neg (hl .BLOB)]

theorem not_listId_of_not_reserved (lid : String) (h : isReservedId lid = false) :
    lid ≠ _logical_list_type :=
  (not_reserved_components lid h).2.1

theorem primitiveLogicalId_ne_listId (p : PrimitiveTypeId) :
    primitiveLogicalId p ≠ _logical_list_type := by
  cases p <;> decide

theorem primitiveListLogicalId_ne_listId (p : PrimitiveTypeId) :
    primitiveListLogicalId p ≠ _logical_list_type := by
  cases p <;> decide

mutual

theorem noDouble_of_good : ∀ (t : KnimeType), goodType t = true → noDoubleLogical t = true
  | .primitive _, _ => rfl
  | .list t, h => by
      simp only [goodType] at h
      simp only [noDoubleLogical]
      exact noDouble_of_good t h
  | .struct ts, h => by
      simp only [goodType] at h
      simp only [noDoubleLogical]
      exact noDoubleList_of_good ts h
  | .logical lid s, h => by
      simp only [goodType, Bool.and_eq_true] at h
      simp only [noDoubleLogical, Bool.and_eq_true]
      exact ⟨h.1.2, noDouble_of_good s h.2⟩

theorem noDoubleList_of_good : ∀ (ts : KnimeTypeList),
    goodTypeList ts = true → noDoubleLogicalList ts = true
  | .nil, _ => rfl
  | .cons t ts, h => by
      simp only [goodTypeList, Bool.and_eq_true] at h
      simp only [noDoubleLogicalList, Bool.and_eq_true]
      exact ⟨noDouble_of_good t h.1, noDoubleList_of_good ts h.2⟩

end

theorem goodType_list_elim (t : KnimeType) (h : goodType (.list t) = true) :
    goodType t = true := h

theorem goodType_logical_elim (lid : String) (s : KnimeType)
    (h : goodType (.logical lid s) = true) :
    isReservedId lid = false ∧ s.isLogical = false ∧ goodType s = true := by
  simp only [goodType, Bool.and_eq_true, Bool.not_eq_true'] at h
  exact ⟨h.1.1, h.1.2, h.2⟩

theorem unwrap_wrap : ∀ (t : KnimeType), goodType t = true → unwrapType (wrapType t) = t
  | .primitive p, _ => by
      simp [wrapType, unwrapType, primitiveTypeOfId_primitive]
  | .list (.primitive p), _ => by
      simp [wrapType, unwrapType, primitiveTypeOfId_primitiveList]
  | .list (.list inner), h => by
      have ih := unwrap_wrap (.list inner) (goodType_list_elim _ h)
      simp [wrapType, unwrapType, primitiveTypeOfId_listId, ih]
  | .list (.struct ts), h => by
      have ih := unwrap_wrap (.struct ts) (goodType_list_elim _ h)
      simp [wrapType, unwrapType, primitiveTypeOfId_listId, ih]
  | .list (.logical lid s), h => by
      have ih := unwrap_wrap (.logical lid s) (goodType_list_elim _ h)
      simp only [wrapType] at ih ⊢
      simp [unwrapType, primitiveTypeOfId_listId, ih]
  | .struct ts, _ => by simp [wrapType, unwrapType]
  | .logical lid s, h => by
      obtain ⟨hres, -, -⟩ := goodType_logical_elim lid s h
      cases s <;>
        simp [wrapType, unwrapType, primitiveTypeOfId_of_not_reserved lid hres,
          not_listId_of_not_reserved lid hres]

theorem noDouble_wrap : ∀ (t : KnimeType), goodType t = true →
    noDoubleLogical (wrapType t) = true
  | .primitive p, _ => by simp [wrapType, noDoubleLogical, KnimeType.isLogical]
  | .list (.primitive p), _ => by simp [wrapType, noDoubleLogical, KnimeType.isLogical]
  | .list (.list inner), h => by
      have ih := noDouble_wrap (.list inner) (goodType_list_elim _ h)
      simp only [wrapType] at ih ⊢
      simp [noDoubleLogical, KnimeType.isLogical, ih]
  | .list (.struct ts), h => by
      have ih : noDoubleLogicalList ts = true := by
        have hx := noDouble_of_good (.struct ts) (goodType_list_elim _ h)
        simpa [noDoubleLogical] using hx
      simp [wrapType, noDoubleLogical, KnimeType.isLogical, ih]
  | .list (.logical lid s), h => by
      obtain ⟨-, hnl, hgs⟩ := goodType_logical_elim lid s (goodType_list_elim _ h)
      have ihs : noDoubleLogical s = true := noDouble_of_good s hgs
      simp [wrapType, noDoubleLogical, KnimeType.isLogical, hnl, ihs]
      exact hnl
  | .struct ts, h => noDouble_of_good (.struct ts) h
  | .logical lid s, h => noDouble_of_good (.logical lid s) h

theorem checkLt_ok (registry : List (String × PythonValueFactory))
    (o : Option String) (t : KnimeType)
    (ho : ∀ lid, o = some lid → idOk registry lid = true) :
    checkLt registry o t = .ok (applyLt o t) := by
  cases o with
  | none => rfl
  | some lid => simp [checkLt, applyLt, ho lid rfl]

mutual

theorem dictToType_spec_traits (registry : List (String × PythonValueFactory)) :
    ∀ (t : KnimeType) (o : Option String),
    noDoubleLogical t = true → (t.isLogical = false ∨ o = none) →
    idsOk registry t = true → (∀ lid, o = some lid → idOk registry lid = true) →
    dictToType registry (typeToSpec t) (typeToTraits t o) = .ok (applyLt o t)
  | .primitive p, o, _, _, _, ho => by
      simp [typeToSpec, typeToTraits, dictToType, tagToPrimitive_primitiveTag p,
        Bind.bind, Except.bind, checkLt_ok registry o (.primitive p) ho]
  | .list t, o, h, _, hids, ho => by
      have hids' : idsOk registry t = true := hids
      have ih := dictToType_spec_traits registry t none h (Or.inr rfl) hids'
        (fun _ hl => by cases hl)
      simp [typeToSpec, typeToTraits, dictToType, ih, Bind.bind, Except.bind, applyLt,
        checkLt_ok registry o (.list t) ho]
  | .struct ts, o, h, _, hids, ho => by
      have hids' : idsOkList registry ts = true := hids
      have ih := dictToTypeList_spec_traits registry ts h hids'
      simp [typeToSpec, typeToTraits, dictToType, ih, Bind.bind, Except.bind, applyLt,
        checkLt_ok registry o (.struct ts) ho]
  | .logical lid st, o, h, ho, hids, _ => by
      have hnl : st.isLogical = false ∧ noDoubleLogical st = true := by
        simp only [noDoubleLogical, Bool.and_eq_true, Bool.not_eq_true'] at h
        exact h
      have hids' : idOk registry lid = true ∧ idsOk registry st = true := by
        simp only [idsOk, Bool.and_eq_true] at hids
        exact hids
      have ho' : o = none := by
        cases ho with
        | inl hx => simp [KnimeType.isLogical] at hx
        | inr hx => exact hx
      subst ho'
      have ih := dictToType_spec_traits registry st (some lid) hnl.2 (Or.inl hnl.1)
        hids'.2 (fun l hl => by injection hl with e; rw [← e]; exact hids'.1)
      simp [typeToSpec, typeToTraits, ih, applyLt]

theorem dictToTypeList_spec_traits (registry : List (String × PythonValueFactory)) :
    ∀ (ts : KnimeTypeList),
    noDoubleLogicalList ts = true → idsOkList registry ts = true →
    dictToTypeList registry (typeToSpecList ts) (typeToTraitsList ts) = .ok ts
  | .nil, _, _ => rfl
  | .cons t ts, h, hids => by
      have h' : noDoubleLogical t = true ∧ noDoubleLogicalList ts = true := by
        simp only [noDoubleLogicalList, Bool.and_eq_true] at h
        exact h
      have hids' : idsOk registry t = true ∧ idsOkList registry ts = true := by
        simp only [idsOkList, Bool.and_eq_true] at hids
        exact hids
      have ih1 := dictToType_spec_traits registry t none h'.1 (Or.inr rfl) hids'.1
        (fun _ hl => by cases hl)
      have ih2 := dictToTypeList_spec_traits registry ts h'.2 hids'.2
      simp [typeToSpecList, typeToTraitsList, dictToTypeList, ih1, ih2, Bind.bind,
        Except.bind, applyLt]

end

theorem zipToTypes_map (registry : List (String × PythonValueFactory))
    (cols : List Column)
    (h : ∀ c ∈ cols, noDoubleLogical c.ktype = true)
    (hids : ∀ c ∈ cols, idsOk registry c.ktype = true) :
    zipToTypes registry (cols.map (fun c => typeToSpec c.ktype))
      (cols.map (fun c => typeToTraits c.ktype none)) =
      .ok (cols.map Column.ktype) := by
  induction cols with
  | nil => rfl
  | cons c cs ih =>
      have h1 := dictToType_spec_traits registry c.ktype none (h c (by simp))
        (Or.inr rfl) (hids c (by simp)) (fun _ hl => by cases hl)
      have h2 := ih (fun x hx => h x (by simp [hx])) (fun x hx => hids x (by simp [hx]))
      simp [zipToTypes, h1, h2, Bind.bind, Except.bind, applyLt]

theorem buildColumns_proj (cols : List Column)
    (h : ∀ c ∈ cols, pyStrip c.name ≠ "") :
    buildColumns (cols.map Column.ktype) (cols.map Column.name)
      (cols.map Column.metadata) = .ok cols := by
  induction cols with
  | nil => rfl
  | cons c cs ih =>
      have h1 : pyStrip c.name ≠ "" := h c (by simp)
      have h2 := ih (fun x hx => h x (by simp [hx]))
      simp [buildColumns, Column.create, h1, h2, Bind.bind, Except.bind]

theorem goodSchema_elim (s : Schema) (hgood : goodSchema s = true) :
    ∀ c ∈ s.columns, goodType c.ktype = true ∧ pyStrip c.name ≠ "" := by
  intro c hc
  have := (List.all_eq_true.mp hgood) c hc
  simp only [goodColumn, Bool.and_eq_true, bne_iff_ne, ne_eq] at this
  exact this

mutual

theorem idsOk_of_registered (registry : List (String × PythonValueFactory)) :
    ∀ (t : KnimeType), registeredType registry t = true → idsOk registry t = true
  | .primitive _, _ => rfl
  | .list t, h => idsOk_of_registered registry t h
  | .struct ts, h => idsOkList_of_registered registry ts h
  | .logical lid st, h => by
      simp only [registeredType, Bool.and_eq_true] at h
      simp only [idsOk, Bool.and_eq_true]
      exact ⟨by simp [idOk, h.1], idsOk_of_registered registry st h.2⟩

theorem idsOkList_of_registered (registry : List (String × PythonValueFactory)) :
    ∀ (ts : KnimeTypeList), registeredTypeList registry ts = true →
      idsOkList registry ts = true
  | .nil, _ => rfl
  | .cons t ts, h => by
      simp only [registeredTypeList, Bool.and_eq_true] at h
      simp only [idsOkList, Bool.and_eq_true]
      exact ⟨idsOk_of_registered registry t h.1, idsOkList_of_registered registry ts h.2⟩

end

theorem idOk_listId (registry : List (String × PythonValueFactory)) :
    idOk registry _logical_list_type = true := by
  simp [idOk, isReservedId]

theorem isReservedId_primitive (p : PrimitiveTypeId) :
    isReservedId (primitiveLogicalId p) = true := by
  cases p <;> rfl

theorem isReservedId_primitiveList (p : PrimitiveTypeId) :
    isReservedId (primitiveListLogicalId p) = true := by
  cases p <;> rfl

theorem idsOk_wrap (registry : List (String × PythonValueFactory)) :
    ∀ (t : KnimeType), registeredType registry t = true →
      idsOk registry (wrapType t) = true
  | .primitive p, _ => by simp [wrapType, idsOk, idOk, isReservedId_primitive p]
  | .list (.primitive p), _ => by
      simp [wrapType, idsOk, idOk, isReservedId_primitiveList p]
  | .list (.list inner), h => by
      have ih := idsOk_wrap registry (.list inner) h
      simp only [wrapType] at ih ⊢
      simp only [idsOk, Bool.and_eq_true]
      exact ⟨idOk_listId registry, ih⟩
  | .list (.struct ts), h => by
      have ih : idsOkList registry ts = true := idsOkList_of_registered registry ts h
      simp only [wrapType, idsOk, Bool.and_eq_true]
      exact ⟨idOk_listId registry, ih⟩
  | .list (.logical lid st), h => by
      have ih := idsOk_of_registered registry (.logical lid st) h
      simp only [idsOk, Bool.and_eq_true] at ih
      simp only [wrapType, idsOk, Bool.and_eq_true]
      exact ⟨idOk_listId registry, ih⟩
  | .struct ts, h => idsOk_of_registered registry (.struct ts) h
  | .logical lid st, h => idsOk_of_registered registry (.logical lid st) h

theorem registeredSchema_elim (registry : List (String × PythonValueFactory))
    (s : Schema) (hreg : registeredSchema registry s = true) :
    ∀ c ∈ s.columns, registeredType registry c.ktype = true := by
  intro c hc
  exact (List.all_eq_true.mp hreg) c hc

theorem topLt_typeToTraits (t : KnimeType) (o : Option String)
    (h : t.isLogical = false) : (typeToTraits t o).topLt = o := by
  cases t with
  | primitive p => rfl
  | list x => rfl
  | struct ts => rfl
  | logical lid s => simp [KnimeType.isLogical] at h

theorem listId_iff (t : KnimeType) (h : goodType t = true) :
    ((typeToTraits (wrapType t) none).topLt = some _logical_list_type ↔
      isNonPrimitiveList t = true) := by
  cases t with
  | primitive p =>
      simp [wrapType, typeToTraits, TraitNode.topLt, isNonPrimitiveList,
        primitiveLogicalId_ne_listId p]
  | list inner =>
      cases inner with
      | primitive p =>
          simp [wrapType, typeToTraits, TraitNode.topLt, isNonPrimitiveList,
            primitiveListLogicalId_ne_listId p]
      | list x => simp [wrapType, typeToTraits, TraitNode.topLt, isNonPrimitiveList]
      | struct ts => simp [wrapType, typeToTraits, TraitNode.topLt, isNonPrimitiveList]
      | logical lid st =>
          simp [wrapType, typeToTraits, TraitNode.topLt, isNonPrimitiveList]
  | struct ts => simp [wrapType, typeToTraits, TraitNode.topLt, isNonPrimitiveList]
  | logical lid s =>
      obtain ⟨hres, hnl, -⟩ := goodType_logical_elim lid s h
      have htop : (typeToTraits s (some lid)).topLt = some lid :=
        topLt_typeToTraits s (some lid) hnl
      simp [wrapType, typeToTraits, isNonPrimitiveList, htop,
        not_listId_of_not_reserved lid hres]

theorem to_knime_dict_ok_elim (s : Schema) (d : WireDict)
    (hok : s.to_knime_dict = Except.ok d) :
    hasDuplicateB (s.columns.map (fun c => pyStrip c.name)) = false ∧
    d = ⟨(rowKeyColumn :: s.columns.map wrapColumn).map (fun c => typeToSpec c.ktype),
      (rowKeyColumn :: s.columns.map wrapColumn).map (fun c => typeToTraits c.ktype none),
      (rowKeyColumn :: s.columns.map wrapColumn).map Column.name,
      (rowKeyColumn :: s.columns.map wrapColumn).map Column.metadata⟩ := by
  unfold Schema.to_knime_dict at hok
  split at hok
  · cases hok
  · rename_i hdup
    refine ⟨by simpa using hdup, ?_⟩
    injection hok with h
    exact h.symm

theorem from_knime_dict_of_export (registry : List (String × PythonValueFactory))
    (s : Schema) (hgood : goodSchema s = true)
    (hreg : registeredSchema registry s = true) :
    Schema.from_knime_dict registry
      ⟨(rowKeyColumn :: s.columns.map wrapColumn).map (fun c => typeToSpec c.ktype),
        (rowKeyColumn :: s.columns.map wrapColumn).map (fun c => typeToTraits c.ktype none),
        (rowKeyColumn :: s.columns.map wrapColumn).map Column.name,
        (rowKeyColumn :: s.columns.map wrapColumn).map Column.metadata⟩ =
      Except.ok s := by
  have hW : ∀ c ∈ rowKeyColumn :: s.columns.map wrapColumn,
      noDoubleLogical c.ktype = true := by
    intro c hc
    rcases List.mem_cons.mp hc with h | h
    · subst h; rfl
    · obtain ⟨c0, hc0, rfl⟩ := List.mem_map.mp h
      exact noDouble_wrap c0.ktype (goodSchema_elim s hgood c0 hc0).1
  have hI : ∀ c ∈ rowKeyColumn :: s.columns.map wrapColumn,
      idsOk registry c.ktype = true := by
    intro c hc
    rcases List.mem_cons.mp hc with h | h
    · subst h
      simp [rowKeyColumn, idsOk, idOk, isReservedId]
    · obtain ⟨c0, hc0, rfl⟩ := List.mem_map.mp h
      exact idsOk_wrap registry c0.ktype (registeredSchema_elim registry s hreg c0 hc0)
  have hz := zipToTypes_map registry _ hW hI
  have hmap : s.columns.map (fun c => unwrapType (wrapType c.ktype)) =
      s.columns.map Column.ktype :=
    List.map_congr_left (fun c hc => by
      rw [unwrap_wrap c.ktype (goodSchema_elim s hgood c hc).1])
  have hbc := buildColumns_proj s.columns (fun c hc => (goodSchema_elim s hgood c hc).2)
  unfold Schema.from_knime_dict
  rw [hz]
  simp only [Bind.bind, Except.bind, List.map_cons, List.map_map]
  simp only [rowKeyColumn, wrapColumn, isRowKeyType, Function.comp]
  simp only [beq_self_eq_true]
  rw [if_pos trivial]
  rw [show List.map (unwrapType ∘ Column.ktype ∘ wrapColumn) s.columns
        = List.map (fun c => unwrapType (wrapType c.ktype)) s.columns from rfl,
    hmap,
    show List.map (Column.name ∘ wrapColumn) s.columns
        = List.map Column.name s.columns from rfl,
    show List.map (Column.metadata ∘ wrapColumn) s.columns
        = List.map Column.metadata s.columns from rfl,
    hbc]

/-- C1: for every representable schema `s` (columns built from Primitive,
List, Struct and Logical types whose identifiers avoid the codec's reserved
ones, with non-blank names) all of whose logical identifiers carry a
registered converter, if the export succeeds then importing the exported
wire dict — which consults the Extension Registry for every `logical_type`
trait — is structurally equal to `s`, and exporting the re-imported schema
again yields a wire dict equal to the first export, including the forced
row-key and list-wrapper tagging the export applies. -/
theorem knime_dict_roundtrip (registry : List (String × PythonValueFactory))
    (s : Schema) (d : WireDict)
    (hgood : goodSchema s = true) (hreg : registeredSchema registry s = true)
    (hok : s.to_knime_dict = Except.ok d) :
    Schema.from_knime_dict registry d = Except.ok s ∧
    ∀ s2 : Schema, Schema.from_knime_dict registry d = Except.ok s2 →
      s2.to_knime_dict = Except.ok d := by
  obtain ⟨-, hd⟩ := to_knime_dict_ok_elim s d hok
  subst hd
  have hmain := from_knime_dict_of_export registry s hgood hreg
  refine ⟨hmain, fun s2 h2 => ?_⟩
  rw [hmain] at h2
  injection h2 with h3
  rw [← h3]
  exact hok

/-- C1 witness: a concrete four-column schema (primitive, list-of-logical,
struct, logical) whose date and time identifiers are registered in
`exC1reg` round-trips through the wire dict. -/
theorem knime_dict_roundtrip_witness :
    goodSchema exC1 = true ∧ registeredSchema exC1reg exC1 = true ∧
    Schema.to_knime_dict exC1 = Except.ok exC1dict ∧
    Schema.from_knime_dict exC1reg exC1dict = Except.ok exC1 :=
  ⟨rfl, rfl, rfl, (knime_dict_roundtrip exC1reg exC1 exC1dict rfl rfl rfl).1⟩

/-- C2: for every schema accepted by `to_knime_dict`, the exported wire
dict's traits entry for column 0 is the row-key trait node carrying the
fixed well-known row-key identifier — independent of the schema's columns,
in particular of the declared type of its column 0. -/
theorem export_rowkey_trait (s : Schema) (d : WireDict)
    (hok : s.to_knime_dict = Except.ok d) :
    d.traits.head? = some (TraitNode.simple (some _row_key_type)) := by
  obtain ⟨-, hd⟩ := to_knime_dict_ok_elim s d hok
  subst hd
  rfl

/-- C2 witness: a schema whose own column 0 is a date Logical type still
exports the fixed row-key identifier at wire position 0. -/
theorem export_rowkey_trait_witness :
    Schema.to_knime_dict exC2 = Except.ok exC2dict ∧
    exC2dict.traits.head? = some (TraitNode.simple (some _row_key_type)) :=
  ⟨rfl, export_rowkey_trait exC2 exC2dict rfl⟩

/-- C3 counterexample: exporting a schema whose only column is a List of a
Struct — whose element type is not a Logical type — succeeds, and the
column's outer traits nevertheless carry the fixed "list" identifier,
refuting "… exactly when the column's type is a List whose element type is
a Logical type". -/
theorem export_list_wrapper_counterexample :
    Schema.to_knime_dict exC3 = Except.ok exC3dict ∧
    (exC3dict.traits[1]?).map TraitNode.topLt = some (some _logical_list_type) ∧
    exC3.columns.map (fun c => isListOfLogical c.ktype) = [false] :=
  ⟨rfl, rfl, rfl⟩

/-- C3 (amended): in the exported wire dict, a column's outer traits carry
the fixed well-known "list" identifier exactly when the column's type is a
List whose element type is not a plain primitive (Logical, Struct and List
element types all carry it); a List column whose element type is a plain
primitive instead carries that primitive's dedicated list identifier and
not the generic one. -/
theorem export_list_wrapper_iff (s : Schema) (d : WireDict) (j : Nat)
    (c : Column) (tr : TraitNode)
    (hok : s.to_knime_dict = Except.ok d) (hgood : goodType c.ktype = true)
    (hc : s.columns[j]? = some c) (htr : d.traits[j + 1]? = some tr) :
    (tr.topLt = some _logical_list_type ↔ isNonPrimitiveList c.ktype = true) := by
  obtain ⟨-, hd⟩ := to_knime_dict_ok_elim s d hok
  subst hd
  simp only [List.map_cons, List.getElem?_cons_succ, List.getElem?_map, hc,
    Option.map_some] at htr
  injection htr with htr2
  rw [← htr2]
  exact listId_iff c.ktype hgood

/-- C3 witness for the amended claim: at a concrete list-of-logical column
the exported outer traits carry the "list" identifier, and the equivalence
is discharged at that input. -/
theorem export_list_wrapper_iff_witness :
    ((TraitNode.list (some _logical_list_type)
        (TraitNode.simple (some localDateId))).topLt = some _logical_list_type ↔
      isNonPrimitiveList (KnimeType.list (.logical localDateId (.primitive .LONG))) = true) :=
  export_list_wrapper_iff exC3b exC3bdict 0
    ⟨.list (.logical localDateId (.primitive .LONG)), "Dates", none⟩
    (TraitNode.list (some _logical_list_type) (TraitNode.simple (some localDateId)))
    rfl rfl rfl rfl

theorem buildColumns_names (ktypes : List KnimeType) (names : List String)
    (md : List (Option String))
    (hlen1 : ktypes.length = names.length) (hlen2 : md.length = names.length)
    (hb : ∀ n ∈ names, pyStrip n ≠ "") :
    ∃ cols, buildColumns ktypes names md = .ok cols ∧ cols.map Column.name = names := by
  induction ktypes generalizing names md with
  | nil =>
      cases names with
      | nil =>
          cases md with
          | nil => exact ⟨[], rfl, rfl⟩
          | cons m ms => simp at hlen2
      | cons n ns => simp at hlen1
  | cons t ts ih =>
      cases names with
      | nil => simp at hlen1
      | cons n ns =>
          cases md with
          | nil => simp at hlen2
          | cons m ms =>
              have hb1 : pyStrip n ≠ "" := hb n (by simp)
              obtain ⟨cols, h1, h2⟩ := ih ns ms (by simpa using hlen1)
                (by simpa using hlen2) (fun x hx => hb x (by simp [hx]))
              refine ⟨⟨t, n, m⟩ :: cols, ?_, by simp [h2]⟩
              simp [buildColumns, Column.create, hb1, h1, Bind.bind, Except.bind]

/-- C4: schema construction succeeds even when two columns have equal
(trimmed) names — only length and blank-name checks happen there — and for
every such schema `to_knime_dict` fails with the duplicate-name
serialization error: duplicate-name checking happens only at wire export,
never at construction. -/
theorem dup_names_fail_only_at_export (ktypes : List KnimeType) (names : List String)
    (hlen : ktypes.length = names.length)
    (hblank : ∀ n ∈ names, pyStrip n ≠ "")
    (hdup : hasDuplicateB (names.map pyStrip) = true) :
    ∃ s : Schema, Schema.from_types ktypes names none = Except.ok s ∧
      s.to_knime_dict = Except.error "Duplicate column names detected" := by
  obtain ⟨cols, h1, h2⟩ := buildColumns_names ktypes names (names.map (fun _ => none))
    hlen (by simp) hblank
  have h1r : buildColumns ktypes names (List.replicate names.length none) =
      Except.ok cols := by simpa using h1
  refine ⟨⟨cols⟩, ?_, ?_⟩
  · unfold Schema.from_types
    simp [hlen, h1, h1r, Bind.bind, Except.bind]
  · unfold Schema.to_knime_dict
    have hnames : cols.map (fun c => pyStrip c.name) = names.map pyStrip := by
      rw [show (fun c => pyStrip c.name) = (pyStrip ∘ Column.name) from rfl,
        ← List.map_map, h2]
    rw [hnames, if_pos hdup]

/-- C4 witness: the spec's concrete example — a schema with two columns
both named "Ints" is constructed successfully and fails only at export. -/
theorem dup_names_fail_only_at_export_witness :
    ∃ s : Schema, Schema.from_types [int32, int64, double, string]
        ["Ints", "Ints", "Doubles", "Strings"] none = Except.ok s ∧
      s.to_knime_dict = Except.error "Duplicate column names detected" :=
  dup_names_fail_only_at_export _ _ rfl (by decide) rfl

/-- C5: for every primitive tag in INT, LONG, DOUBLE, STRING, BOOL, BLOB,
two independent constructions of the primitive type with that tag yield the
identical interned instance (the intern table entry of the tag), and they
compare equal — and not unequal — under the modelled `__eq__`/`__ne__`. -/
theorem primitive_interning (p : PrimitiveTypeId) :
    internPrimitive p = internPrimitive p ∧
    KnimeType.beq (internPrimitive p) (internPrimitive p) = true ∧
    (!KnimeType.beq (internPrimitive p) (internPrimitive p)) = false := by
  refine ⟨rfl, knimeTypeBeqSelf _, ?_⟩
  rw [knimeTypeBeqSelf]
  rfl

theorem removeCols_none (a : RemoveArg) (cols : List Column)
    (h : firstMatchIdx a cols = none) :
    removeCols a cols = Except.error "Column not found" := by
  induction cols with
  | nil => rfl
  | cons c cs ih =>
      by_cases hm : colMatches a c = true
      · simp [firstMatchIdx, hm] at h
      · have h' : firstMatchIdx a cs = none := by
          simp only [firstMatchIdx, hm, if_false, Bool.false_eq_true] at h
          simpa using h
        simp [removeCols, hm, ih h', Except.map]

theorem removeCols_some (a : RemoveArg) (cols : List Column) (i : Nat)
    (h : firstMatchIdx a cols = some i) :
    removeCols a cols = Except.ok (cols.eraseIdx i) := by
  induction cols generalizing i with
  | nil => simp [firstMatchIdx] at h
  | cons c cs ih =>
      by_cases hm : colMatches a c = true
      · simp only [firstMatchIdx, hm, if_true, Option.some.injEq] at h
        subst h
        simp [removeCols, hm]
      · rw [firstMatchIdx, if_neg hm] at h
        cases hrec : firstMatchIdx a cs with
        | none => rw [hrec] at h; cases h
        | some j =>
            rw [hrec] at h
            rw [show Option.map (fun x => x + 1) (some j) = some (j + 1) from rfl] at h
            injection h with h
            subst h
            simp [removeCols, hm, ih j hrec, Except.map]

theorem removeAll_names (cols : List Column) :
    removeAllNames ⟨cols⟩ (cols.map Column.name) = Except.ok ⟨[]⟩ := by
  induction cols with
  | nil => rfl
  | cons c cs ih =>
      simp [removeAllNames, Schema.remove, removeCols, colMatches, Bind.bind,
        Except.bind, Except.map, ih]

/-- C6: for every schema `s` and identifier (a name or a Column): if no
column matches, `remove` fails with the lookup error — and in this
functional embedding the schema value `s` is untouched, so length and
columns are unchanged; if some column matches, `remove` removes exactly the
first matching column; and removing every present column name one by one
empties the schema. -/
theorem schema_remove_spec (s : Schema) (a : RemoveArg) :
    (firstMatchIdx a s.columns = none →
      s.remove a = Except.error "Column not found") ∧
    (∀ i : Nat, firstMatchIdx a s.columns = some i →
      s.remove a = Except.ok ⟨s.columns.eraseIdx i⟩) ∧
    removeAllNames s s.column_names = Except.ok ⟨[]⟩ := by
  refine ⟨?_, ?_, ?_⟩
  · intro h
    unfold Schema.remove
    rw [removeCols_none a s.columns h]
    rfl
  · intro i h
    unfold Schema.remove
    rw [removeCols_some a s.columns i h]
    rfl
  · exact removeAll_names s.columns

/-- C6 witness: on a two-column schema, removing an absent name fails,
removing "B" removes exactly that column, and removing every present name
empties the schema. -/
theorem schema_remove_spec_witness :
    exC6.remove (.name "missing") = Except.error "Column not found" ∧
    exC6.remove (.name "B") = Except.ok ⟨[⟨.primitive .INT, "A", none⟩]⟩ ∧
    removeAllNames exC6 exC6.column_names = Except.ok ⟨[]⟩ :=
  ⟨(schema_remove_spec exC6 (.name "missing")).1 rfl,
   (schema_remove_spec exC6 (.name "B")).2.1 1 rfl,
   (schema_remove_spec exC6 (.name "A")).2.2⟩

/-- C7: `logical(v)` fails with a type error — and in particular never
returns a Logical type wrapping `v` — for every argument that is not a
value type with a registered converter: both for arbitrary non-type
objects and for unregistered types. -/
theorem logical_unregistered_fails (reg : List (String × PythonValueFactory)) (v : PyArg)
    (h : match v with
      | .nonType => True
      | .valueType key => reg.lookup key = none) :
    logical reg v = Except.error "Argument of logical is not a registered value type" ∧
    ∀ t : KnimeType, logical reg v ≠ Except.ok t := by
  have herr : logical reg v =
      Except.error "Argument of logical is not a registered value type" := by
    cases v with
    | nonType => rfl
    | valueType key =>
        simp only at h
        simp [logical, h]
  refine ⟨herr, fun t hth => ?_⟩
  rw [herr] at hth
  cases hth

/-- C7 witness: with a registry holding only `datetime.date`, looking up
the unregistered type `int` fails with the type error. -/
theorem logical_unregistered_fails_witness :
    logical exC7reg (.valueType "builtins.int") =
      Except.error "Argument of logical is not a registered value type" :=
  (logical_unregistered_fails exC7reg (.valueType "builtins.int") rfl).1

theorem removeCols_append_not_matching (a : RemoveArg) (kept rest : List Column)
    (hk : ∀ k ∈ kept, colMatches a k = false) :
    removeCols a (kept ++ rest) = (removeCols a rest).map (fun r => kept ++ r) := by
  induction kept with
  | nil =>
      simp only [List.nil_append]
      cases hh : removeCols a rest <;> simp [Except.map, hh]
  | cons k ks ih =>
      have h1 : colMatches a k = false := hk k (by simp)
      have h2 := ih (fun x hx => hk x (by simp [hx]))
      simp only [List.cons_append, removeCols, List.append_eq]
      rw [if_neg (by simp [h1]), h2]
      cases hh : removeCols a rest <;> simp [Except.map, hh]

theorem removeCols_self_head (c : Column) (rest : List Column) :
    removeCols (.column c) (c :: rest) = Except.ok rest := by
  simp [removeCols, colMatches, columnBeqSelf]

theorem pyLoop_steps : ∀ (rest kept : List Column),
    List.Pairwise (fun a b => Column.beq a b = false) (kept ++ rest) →
    pyLoopRemove kept.length (kept ++ rest) = Except.ok (kept ++ everyOther rest)
  | [], kept, _ => by
      rw [pyLoopRemove.eq_def]
      rw [dif_neg (by simp)]
      simp [everyOther]
  | [c], kept, h => by
      have hk : ∀ k ∈ kept, colMatches (.column c) k = false := by
        intro k hkm
        obtain ⟨-, -, hcross⟩ := List.pairwise_append.mp h
        exact hcross k hkm c (by simp)
      have hrm : removeCols (.column c) (kept ++ [c]) = Except.ok kept := by
        rw [removeCols_append_not_matching _ _ _ hk, removeCols_self_head]
        simp [Except.map]
      rw [pyLoopRemove.eq_def]
      rw [dif_pos (by simp)]
      have hget : (kept ++ [c]).get ⟨kept.length, by simp⟩ = c := by
        simp only [List.get_eq_getElem]
        rw [List.getElem_append_right (Nat.le_refl kept.length)]
        simp
      rw [hget, hrm]
      show pyLoopRemove (kept.length + 1) kept = Except.ok (kept ++ everyOther [c])
      rw [pyLoopRemove.eq_def]
      rw [dif_neg (by omega)]
      simp [everyOther]
  | c :: b :: rest2, kept, h => by
      have hk : ∀ k ∈ kept, colMatches (.column c) k = false := by
        intro k hkm
        obtain ⟨-, -, hcross⟩ := List.pairwise_append.mp h
        exact hcross k hkm c (by simp)
      have hrm : removeCols (.column c) (kept ++ c :: b :: rest2) =
          Except.ok (kept ++ b :: rest2) := by
        rw [removeCols_append_not_matching _ _ _ hk, removeCols_self_head]
        simp [Except.map]
      have hpair2 : List.Pairwise (fun a b => Column.beq a b = false)
          ((kept ++ [b]) ++ rest2) := by
        have hsub : (kept ++ b :: rest2).Sublist (kept ++ c :: b :: rest2) :=
          List.Sublist.append_left (List.sublist_cons_self c (b :: rest2)) kept
        have := h.sublist hsub
        simpa using this
      have ih := pyLoop_steps rest2 (kept ++ [b]) hpair2
      rw [pyLoopRemove.eq_def]
      rw [dif_pos (by simp)]
      have hget : (kept ++ c :: b :: rest2).get ⟨kept.length, by simp⟩ = c := by
        simp only [List.get_eq_getElem]
        rw [List.getElem_append_right (Nat.le_refl kept.length)]
        simp
      rw [hget, hrm]
      have hlen2 : (kept ++ [b]).length = kept.length + 1 := by simp
      rw [hlen2] at ih
      have heq : (kept ++ [b]) ++ rest2 = kept ++ b :: rest2 := by simp
      rw [heq] at ih
      show pyLoopRemove (kept.length + 1) (kept ++ b :: rest2) =
        Except.ok (kept ++ everyOther (c :: b :: rest2))
      rw [ih]
      simp [everyOther]

theorem everyOther_length : ∀ (cols : List Column),
    (everyOther cols).length = cols.length / 2
  | [] => rfl
  | [_] => by simp [everyOther]
  | _ :: _ :: rest => by
      have ih := everyOther_length rest
      simp [everyOther, ih]
      omega

/-- C9: because `remove` mutates the schema's column list in place,
iterating over the schema's own column sequence while calling `remove` on
each visited column removes only every other column: on `n`
pairwise-distinct columns the loop terminates with exactly the
odd-position columns remaining — `n / 2` of them, not zero. -/
theorem mutating_iteration_halves (cols : List Column)
    (h : List.Pairwise (fun a b => Column.beq a b = false) cols) :
    pyLoopRemove 0 cols = Except.ok (everyOther cols) ∧
    (everyOther cols).length = cols.length / 2 := by
  refine ⟨?_, everyOther_length cols⟩
  have := pyLoop_steps cols [] (by simpa using h)
  simpa using this

/-- C9 witness: the test's four pairwise-distinct columns leave exactly the
two odd-position columns behind. -/
theorem mutating_iteration_halves_witness :
    List.Pairwise (fun a b => Column.beq a b = false) exC9cols ∧
    pyLoopRemove 0 exC9cols =
      Except.ok [⟨.primitive .LONG, "Longs", none⟩,
        ⟨.primitive .STRING, "Strings", none⟩] ∧
    exC9cols.length / 2 = 2 := by
  have hp : List.Pairwise (fun a b => Column.beq a b = false) exC9cols := by decide
  exact ⟨hp, (mutating_iteration_halves exC9cols hp).1, rfl⟩

/-- C8: `_concat_same_type` on a list of two or more geometry arrays
returns an array whose backing data is exactly the concatenation of the
inputs' already-encoded chunks in input order — the chunk lists are passed
through unchanged, so the decode converter is applied to no chunk — tagged
with the first input's storage type, logical type and converter; a
singleton list returns its sole element unchanged. -/
theorem concat_same_type_spec (σ : Type) (l : List (KnimeGeoPandasExtensionArray σ))
    (first : KnimeGeoPandasExtensionArray σ)
    (hlen : 2 ≤ l.length) (hfirst : l.head? = some first) :
    KnimeGeoPandasExtensionArray._concat_same_type l =
      Except.ok ⟨first.storage_type, first.logical_type, first.converter,
        .chunked (l.flatMap KnimeGeoPandasExtensionArray.chunksOf)⟩ ∧
    ∀ a : KnimeGeoPandasExtensionArray σ,
      KnimeGeoPandasExtensionArray._concat_same_type [a] = Except.ok a := by
  refine ⟨?_, fun a => rfl⟩
  cases l with
  | nil => simp at hlen
  | cons a l2 =>
      cases l2 with
      | nil => simp at hlen
      | cons b rest =>
          have hf : a = first := by simpa using hfirst
          subst hf
          rfl

/-- C8 witness: concatenating a two-chunk array with a one-chunk array
yields the three chunks in order under the first array's tagging; the
singleton case returns the array unchanged. -/
theorem concat_same_type_spec_witness :
    KnimeGeoPandasExtensionArray._concat_same_type [exC8a, exC8b] =
      Except.ok ⟨exC8a.storage_type, exC8a.logical_type, exC8a.converter,
        .chunked [[1], [2], [3]]⟩ ∧
    KnimeGeoPandasExtensionArray._concat_same_type [exC8a] = Except.ok exC8a :=
  ⟨(concat_same_type_spec Nat [exC8a, exC8b] exC8a (by decide) rfl).1,
   (concat_same_type_spec Nat [exC8a, exC8b] exC8a (by decide) rfl).2 exC8a⟩

/-- C10: `_from_sequence` fails with a value error for every input it
cannot soundly wrap — a `None` input; an arrow array whose type is not a
logical extension type whose logical identifier contains "Geo"; and a
plain sequence for which no storage type is given (no geo dtype and no
storage-type argument) — and never constructs a geometry array from such
input. -/
theorem from_sequence_rejects (σ : Type)
    (dtype : Option (PandasLogicalGeoTypeExtensionType σ))
    (st : Option PaType) (lt : Option String) (cv : Option (Converter σ)) :
    KnimeGeoPandasExtensionArray._from_sequence (Scalars.none) dtype st lt cv =
      Except.error "Cannot create KnimeGeoPandasExtensionArray from empty data" ∧
    (∀ (ty : ArrowColumnType σ) (data : PaData σ), ty.isGeoExtension = false →
      KnimeGeoPandasExtensionArray._from_sequence (.arrowData ty data) dtype st lt cv =
        Except.error "KnimeGeoPandasExtensionArray must be backed by LogicalTypeExtensionType values with logical type Geo") ∧
    (∀ xs : List σ,
      KnimeGeoPandasExtensionArray._from_sequence (.sequence xs) none none lt cv =
        Except.error "Can only create KnimeGeoPandasExtensionArray from a sequence if the storage type is given.") := by
  refine ⟨rfl, fun ty data hgeo => ?_, fun xs => rfl⟩
  cases ty with
  | plain t => rfl
  | extension e =>
      simp only [ArrowColumnType.isGeoExtension] at hgeo
      show (if containsChars "Geo".toList e.logical_type.toList then
          Except.ok (KnimeGeoPandasExtensionArray.mk e.storage_type
            (some e.logical_type) e.converter data)
        else
          Except.error
            "KnimeGeoPandasExtensionArray must be backed by LogicalTypeExtensionType values with logical type Geo") =
        Except.error
          "KnimeGeoPandasExtensionArray must be backed by LogicalTypeExtensionType values with logical type Geo"
      rw [if_neg (by simpa using hgeo)]

/-- C10 witness: an arrow array whose declared type is a plain (non-Geo,
non-extension) storage type is rejected. -/
theorem from_sequence_rejects_witness :
    KnimeGeoPandasExtensionArray._from_sequence
        (.arrowData (.plain ⟨"int64"⟩) (PaData.array ([1] : List Nat)))
        none none none none =
      Except.error "KnimeGeoPandasExtensionArray must be backed by LogicalTypeExtensionType values with logical type Geo" :=
  (from_sequence_rejects Nat none none none none).2.1
    (.plain ⟨"int64"⟩) (PaData.array [1]) rfl
